import Mathlib

/-!
Shallow embedding of the nannou sketch (src/main.rs): an attractor point
driven by two sinusoids, a grid of nodes that orbit their resting centers
in response to the attractor, and the frame-capture path derivation.

Machine `f32` arithmetic is idealised as real arithmetic (the spec states
its numeric properties "within floating-point tolerance").  The one IEEE
special case that matters, `1000.0 / 0.0 = +inf` clamped by `min` to
`50.0`, is modelled by an explicit zero test, since ℝ has no infinity.
The ambient random generator `random_f32` is modelled by injected draw
values, as the spec directs ("implemented via an injected pseudo-random
generator").
-/

noncomputable section

/-- The drawable rectangle of the window, as the four bounds used by the
source (`left`, `right`, `bottom`, `top`). -/
structure Rect where
  left : ℝ
  right : ℝ
  bottom : ℝ
  top : ℝ

/-- `Rect::pad(p)` of nannou: shrink the rectangle inward by `p` on each
edge. -/
def Rect.pad (r : Rect) (p : ℝ) : Rect :=
  ⟨r.left + p, r.right - p, r.bottom + p, r.top - p⟩

/-- glam 2D vector, as used through `vec2` in the source. -/
structure Vec2 where
  x : ℝ
  y : ℝ

/-- `vec2(x, y)` constructor. -/
def vec2 (x y : ℝ) : Vec2 := ⟨x, y⟩

/-- glam `Vec2::dot`. -/
def Vec2.dot (a b : Vec2) : ℝ := a.x * b.x + a.y * b.y

/-- glam `Vec2::perp_dot` (the 2D cross product). -/
def Vec2.perp_dot (a b : Vec2) : ℝ := a.x * b.y - a.y * b.x

/-- glam `Vec2::angle_between`: the signed angle, in `(-π, π]`, from `a`
to `b`, the two-argument arctangent of the perpendicular dot product and
the dot product.  `Complex.arg ⟨re, im⟩` is exactly `atan2 im re`. -/
def Vec2.angle_between (a b : Vec2) : ℝ := Complex.arg ⟨a.dot b, a.perp_dot b⟩

/-- glam `Vec2::distance`: Euclidean distance. -/
def Vec2.distance (a b : Vec2) : ℝ := Real.sqrt ((a.x - b.x) ^ 2 + (a.y - b.y) ^ 2)

/-- 4-channel color in `[0, 1]` per channel, as built by `srgba(..)`. -/
structure Srgba where
  r : ℝ
  g : ℝ
  b : ℝ
  a : ℝ

/-- The `srgba(r, g, b, a)` constructor of nannou. -/
def srgba (r g b a : ℝ) : Srgba := ⟨r, g, b, a⟩

/-- nannou `map_range(val, in_min, in_max, out_min, out_max)`. -/
def map_range (val in_min in_max out_min out_max : ℝ) : ℝ :=
  (val - in_min) / (in_max - in_min) * (out_max - out_min) + out_min

/-- The attractor (`struct Point` in the source): a position plus the
bounding box captured at construction. -/
structure Point where
  x : ℝ
  y : ℝ
  min_x : ℝ
  max_x : ℝ
  min_y : ℝ
  max_y : ℝ

/-- `Point::new(x, y, boundary)`. -/
def Point.new (x y : ℝ) (boundary : Rect) : Point :=
  ⟨x, y, boundary.left, boundary.right, boundary.bottom, boundary.top⟩

/-- `Point::update(app)`: the elapsed time `app.time` is the explicit
argument `time`. -/
def Point.update (p : Point) (time : ℝ) : Point :=
  { p with
    x := map_range (Real.sin (time / 1.4)) (-1) 1 p.min_x p.max_x
    y := map_range (Real.sin (time / 2.0)) (-1) 1 p.min_y p.max_y }

/-- `struct Node` of the source. -/
structure Node where
  center : Vec2
  x : ℝ
  y : ℝ
  radius : ℝ
  color : Srgba

/-- `Node::new(center, x, y, radius)`. -/
def Node.new (center : Vec2) (x y radius : ℝ) : Node :=
  ⟨center, x, y, radius, srgba 1.0 1.0 1.0 1.0⟩

/-- `Node::update(&mut self, target)`.  The three `random_f32()` draws of
the color branch are the injected values `r1 r2 r3`.  The radius formula
`2.0 + (1000.0 / dist).min(50.0)` is reproduced with the IEEE zero case
written out: in `f32`, `1000.0 / 0.0 = +inf` and `inf.min(50.0) = 50.0`. -/
def Node.update (n : Node) (target : Point) (r1 r2 r3 : ℝ) : Node :=
  let rad := (vec2 n.center.x n.center.y).angle_between (vec2 target.x target.y)
  let x := n.center.x + Real.sin rad * 30.0
  let y := n.center.y + Real.cos rad * 30.0
  let pos := vec2 x y
  let pos_target := vec2 target.x target.y
  let dist := pos.distance pos_target
  let radius := 2.0 + (if dist = 0 then (50.0 : ℝ) else min (1000.0 / dist) 50.0)
  let color := if dist < 100.0 then srgba r1 r2 r3 1.0 else srgba 1.0 1.0 1.0 1.0
  { n with x := x, y := y, radius := radius, color := color }

/-- `create_nodes(rows, cols, win, target, radius)`: the grid builder.
Row-major iteration; note the cross-use of the row index with the column
gap and vice versa, exactly as in the source. -/
def create_nodes (rows cols : ℕ) (win : Rect) (target : Point) (radius : ℝ) :
    List Node :=
  let win_p := win.pad 200
  let x_gap := (win_p.right - win_p.left) / ((cols : ℝ) - 1.0)
  let y_gap := (win_p.top - win_p.bottom) / ((rows : ℝ) - 1.0)
  (List.range rows).map (fun (row : ℕ) =>
    (List.range cols).map (fun (col : ℕ) =>
      let x_center := win_p.left + (row : ℝ) * x_gap
      let y_center := win_p.bottom + (col : ℝ) * y_gap
      let rad := (vec2 x_center y_center).angle_between (vec2 target.x target.y)
      let x := x_center + Real.sin rad * radius
      let y := y_center + Real.cos rad * radius
      Node.new (vec2 x_center y_center) x y radius))
    |>.flatten

end

/-- Zero-padding of `format!("\x7b:03\x7d", n)`: the decimal digits of `n`,
left-padded with the character 0 to a minimum width of 3. -/
def pad3 (n : ℕ) : String :=
  let s := toString n
  String.mk (List.replicate (3 - s.length) '0') ++ s

/-- `captured_frame_path`: the output root joined with the zero-padded
frame index, with extension `png`.  A path is modelled as its list of
components; since the appended component is a pure digit string (no dot),
`with_extension("png")` appends `.png` to it. -/
def captured_frame_path (out_path : List String) (nth : ℕ) : List String :=
  out_path ++ [pad3 nth ++ ".png"]

/-- Decimal decoding of a digit string; inverts `pad3` on the frame
indices the export policy can request. -/
def dec3 (s : String) : ℕ := s.toList.foldl (fun a c => 10 * a + (c.toNat - 48)) 0

/-! ## Fixtures for concrete evaluations -/

noncomputable section

/-- A concrete window rectangle: padded by 200 inside `create_nodes` it
becomes `(-100, 100) × (-100, 100)`. -/
def rectA : Rect := ⟨-300, 300, -300, 300⟩

/-- A concrete attractor position `(-50, -50)`, collinear with the first
grid center `(-100, -100)`, so the bearing there is `0`. -/
def targetA : Point := ⟨-50, -50, 0, 0, 0, 0⟩

/-- The concrete 2 × 2 grid built from `rectA` and `targetA` with the
node base radius 20 of the program. -/
def gridA : List Node := create_nodes 2 2 rectA targetA 20

/-- Fallback node for list indexing. -/
def dummyNode : Node := Node.new (vec2 0 0) 0 0 0

/-- The first node of `gridA` (row 0, column 0). -/
def nodeA : Node := gridA.getD 0 dummyNode

/-- The scenario of §8 of the spec: a node resting at the origin
(initial position and radius are irrelevant, `update` overwrites
them). -/
def nodeC3 : Node := Node.new (vec2 0 0) 0 0 20

/-- The attractor of that scenario, at `(0, 100)` (bounding box
irrelevant to `Node.update`). -/
def targetC3 : Point := ⟨0, 100, 0, 0, 0, 0⟩

/-- The bounding box of the scenario of claim C6. -/
def rectC6 : Rect := ⟨-100, 100, -100, 100⟩

/-- The attractor constructed on that box (initial position as in the
program). -/
def pointC6 : Point := Point.new (-50) 0 rectC6

end

/-! ## Helper lemmas -/

/-- When the perpendicular dot product vanishes and the dot product is
nonnegative, the glam signed angle is `0` (atan2 of `0` and a nonnegative
number, including the degenerate `atan2 0 0 = 0`). -/
theorem Vec2.angle_between_eq_zero (a b : Vec2) (hd : 0 ≤ a.dot b)
    (hp : a.perp_dot b = 0) : a.angle_between b = 0 := by
  have h : (⟨a.dot b, a.perp_dot b⟩ : ℂ) = ((a.dot b : ℝ) : ℂ) := by
    rw [hp]
    rfl
  rw [Vec2.angle_between, h]
  exact Complex.arg_ofReal_of_nonneg hd

/-- Evaluate a square root at a perfect square. -/
theorem sqrt_eval (c v : ℝ) (hv : 0 ≤ v) (h : v ^ 2 = c) : Real.sqrt c = v := by
  rw [← h]
  exact Real.sqrt_sq hv

/-- Length of a flattened map whose pieces all have the same length. -/
theorem flatten_length_const {α β : Type} (l : List α) (f : α → List β) (m : ℕ)
    (h : ∀ a, (f a).length = m) : ((l.map f).flatten).length = l.length * m := by
  induction l with
  | nil => simp
  | cons a t ih =>
    simp only [List.map_cons, List.flatten_cons, List.length_append, ih, h,
      List.length_cons]
    ring

/-- Length of the row-major double map over index ranges. -/
theorem range_map_flatten_length {β : Type} (rows cols : ℕ) (f : ℕ → ℕ → β) :
    (((List.range rows).map (fun row => (List.range cols).map (f row))).flatten).length
      = rows * cols := by
  rw [flatten_length_const _ _ cols (fun a => by simp), List.length_range]

/-! ## Projection lemmas for Node.update -/

theorem Node.update_x (n : Node) (t : Point) (r1 r2 r3 : ℝ) :
    (n.update t r1 r2 r3).x = n.center.x +
      Real.sin ((vec2 n.center.x n.center.y).angle_between (vec2 t.x t.y)) * 30.0 := rfl

theorem Node.update_y (n : Node) (t : Point) (r1 r2 r3 : ℝ) :
    (n.update t r1 r2 r3).y = n.center.y +
      Real.cos ((vec2 n.center.x n.center.y).angle_between (vec2 t.x t.y)) * 30.0 := rfl

theorem Node.update_radius (n : Node) (t : Point) (r1 r2 r3 : ℝ) :
    (n.update t r1 r2 r3).radius = 2.0 +
      (if (vec2 (n.update t r1 r2 r3).x (n.update t r1 r2 r3).y).distance (vec2 t.x t.y) = 0
        then (50.0 : ℝ)
        else min (1000.0 /
          (vec2 (n.update t r1 r2 r3).x (n.update t r1 r2 r3).y).distance (vec2 t.x t.y)) 50.0) :=
  rfl

theorem Node.update_color (n : Node) (t : Point) (r1 r2 r3 : ℝ) :
    (n.update t r1 r2 r3).color =
      if (vec2 (n.update t r1 r2 r3).x (n.update t r1 r2 r3).y).distance (vec2 t.x t.y) < 100.0
      then srgba r1 r2 r3 1.0 else srgba 1.0 1.0 1.0 1.0 := rfl

/-! ## Evaluation of the first node of the concrete grid

The padded window is `(-100, 100) × (-100, 100)`, so the first resting
center is `(-100, -100)`; the attractor `(-50, -50)` is collinear with
it (positive dot product, vanishing perpendicular dot product), so the
bearing is `0` and the initial offset is `(sin 0 * 20, cos 0 * 20) =
(0, 20)`. -/

theorem nodeA_eq : nodeA = Node.new (vec2 (-100) (-100)) (-100) (-80) 20 := by
  have hb : (vec2 (-100 : ℝ) (-100)).angle_between (vec2 (-50) (-50)) = 0 := by
    apply Vec2.angle_between_eq_zero <;>
      norm_num [Vec2.dot, Vec2.perp_dot, vec2]
  simp only [nodeA, gridA, create_nodes, rectA, targetA, Rect.pad,
    List.range_succ, List.range_zero, List.map_cons, List.map_nil,
    List.nil_append, List.cons_append, List.append_nil,
    List.flatten_cons, List.flatten_nil, List.getD_cons_zero]
  norm_num [hb]

/-! ## Claims -/

/-- Claim C9: `Node.update` mutates only the current position, radius and
color of the node itself; the resting center is unchanged, and the
attractor is only read (in the embedding `update` consumes the attractor
immutably and returns a node). -/
theorem C9_update_preserves_center (n : Node) (target : Point) (r1 r2 r3 : ℝ) :
    (n.update target r1 r2 r3).center = n.center := rfl

/-- Claim C8: `captured_frame_path` is a pure function of the output root
and the frame index, the root joined with the index zero-padded to 3
digits plus the fixed `png` extension; in particular index 7 yields the
component `007.png`. -/
theorem C8_frame_path (root : List String) (n : ℕ) :
    captured_frame_path root n = root ++ [pad3 n ++ ".png"] ∧
    captured_frame_path root 7 = root ++ ["007.png"] := by
  refine ⟨rfl, ?_⟩
  have h : pad3 7 ++ ".png" = "007.png" := by decide
  show root ++ [pad3 7 ++ ".png"] = root ++ ["007.png"]
  rw [h]

/-- Claim C5: for every node, every attractor position and every random
draw, the radius produced by `Node.update` lies in `[2, 52]`; the
degenerate zero-distance case yields `2 + 50 = 52` (IEEE `+inf` clamped
to `50`). -/
theorem C5_radius_bounds (n : Node) (target : Point) (r1 r2 r3 : ℝ) :
    2 ≤ (n.update target r1 r2 r3).radius ∧
    (n.update target r1 r2 r3).radius ≤ 52 := by
  set m := n.update target r1 r2 r3 with hm
  have hr : m.radius =
      2.0 + (if (vec2 m.x m.y).distance (vec2 target.x target.y) = 0 then (50.0 : ℝ)
        else min (1000.0 / (vec2 m.x m.y).distance (vec2 target.x target.y)) 50.0) := rfl
  set d := (vec2 m.x m.y).distance (vec2 target.x target.y) with hdd
  have hd0 : 0 ≤ d := Real.sqrt_nonneg _
  by_cases h0 : d = 0
  · rw [hr, if_pos h0]
    norm_num
  · rw [hr, if_neg h0]
    have hpos : 0 < d := lt_of_le_of_ne hd0 (Ne.symm h0)
    have h1 : 0 < 1000.0 / d := by positivity
    have h2 : (0 : ℝ) ≤ min (1000.0 / d) 50.0 := le_min h1.le (by norm_num)
    have h3 : min (1000.0 / d) 50.0 ≤ 50.0 := min_le_right _ _
    constructor <;> linarith

/-- Claim C4 (amended): after every `Node.update`, the Euclidean distance
between the current position and the resting center is exactly 30 (the
initial distance produced by grid construction is instead the radius
argument of the builder, 20 in this program; see the counterexample). -/
theorem C4_orbit_radius_after_update (n : Node) (target : Point) (r1 r2 r3 : ℝ) :
    (vec2 (n.update target r1 r2 r3).x (n.update target r1 r2 r3).y).distance
      (vec2 n.center.x n.center.y) = 30 := by
  set b := (vec2 n.center.x n.center.y).angle_between (vec2 target.x target.y) with hb
  have hx : (n.update target r1 r2 r3).x = n.center.x + Real.sin b * 30.0 := rfl
  have hy : (n.update target r1 r2 r3).y = n.center.y + Real.cos b * 30.0 := rfl
  rw [hx, hy]
  simp only [Vec2.distance, vec2]
  have h1 : (n.center.x + Real.sin b * 30.0 - n.center.x) ^ 2 +
      (n.center.y + Real.cos b * 30.0 - n.center.y) ^ 2 = 900 := by
    linear_combination (900 : ℝ) * Real.sin_sq_add_cos_sq b
  rw [h1]
  exact sqrt_eval 900 30 (by norm_num) (by norm_num)

/-- Claim C2 (amended): `create_nodes` performs no validation of `rows`
or `cols` at all; it totally builds a grid of `rows * cols` nodes for
every input.  The sole call site uses `rows = cols = 30`, whose spacing
divisors `cols - 1 = rows - 1 = 29` are nonzero. -/
theorem C2_no_validation (rows cols : ℕ) (win : Rect) (target : Point) (radius : ℝ) :
    (create_nodes rows cols win target radius).length = rows * cols := by
  simp only [create_nodes]
  rw [range_map_flatten_length]

/-- Claim C2, counterexample: a configuration with `rows = cols = 1` is
not rejected; `create_nodes` happily builds a one-node grid. -/
theorem C2_counterexample : (create_nodes 1 1 rectA targetA 20).length = 1 := rfl

/-- Claim C1 (amended): every grid cell starts at its resting center
offset by `(sin bearing * radius, cos bearing * radius)` where `radius`
is the radius argument of the grid builder (20 at the call site of the
program), not the fixed 30 of `Node.update`. -/
theorem C1_initial_offset (rows cols : ℕ) (win : Rect) (target : Point)
    (radius : ℝ) (nd : Node) (h : nd ∈ create_nodes rows cols win target radius) :
    nd.x = nd.center.x +
      Real.sin ((vec2 nd.center.x nd.center.y).angle_between (vec2 target.x target.y)) *
        radius ∧
    nd.y = nd.center.y +
      Real.cos ((vec2 nd.center.x nd.center.y).angle_between (vec2 target.x target.y)) *
        radius ∧
    nd.radius = radius := by
  simp only [create_nodes, List.mem_flatten, List.mem_map, List.mem_range] at h
  obtain ⟨l, ⟨row, hrow, rfl⟩, hnd⟩ := h
  obtain ⟨col, hcol, rfl⟩ := by simpa using hnd
  refine ⟨?_, ?_, rfl⟩ <;> rfl

/-- Claim C1, counterexample: in the concrete 2 × 2 grid `gridA` the
first node rests at `(-100, -100)` with bearing `0` toward the attractor
`(-50, -50)`; its initial position is `(-100, -80)` (offset 20), while
the claimed 30-unit rule predicts `(-100, -70)`. -/
theorem C1_counterexample :
    nodeA.y ≠ nodeA.center.y +
      Real.cos ((vec2 nodeA.center.x nodeA.center.y).angle_between
        (vec2 targetA.x targetA.y)) * 30 := by
  have hb : (vec2 (-100 : ℝ) (-100)).angle_between (vec2 (-50) (-50)) = 0 := by
    apply Vec2.angle_between_eq_zero <;>
      norm_num [Vec2.dot, Vec2.perp_dot, vec2]
  rw [nodeA_eq]
  simp only [vec2] at hb
  simp only [Node.new, vec2, targetA]
  rw [hb]
  norm_num

/-- Claim C1, witness for the amended theorem: the first node of the
concrete grid satisfies the radius-parameter offset rule. -/
theorem C1_initial_offset_witness :
    nodeA ∈ create_nodes 2 2 rectA targetA 20 ∧
    (nodeA.x = nodeA.center.x +
      Real.sin ((vec2 nodeA.center.x nodeA.center.y).angle_between
        (vec2 targetA.x targetA.y)) * 20 ∧
    nodeA.y = nodeA.center.y +
      Real.cos ((vec2 nodeA.center.x nodeA.center.y).angle_between
        (vec2 targetA.x targetA.y)) * 20 ∧
    nodeA.radius = 20) := by
  have hmem : nodeA ∈ create_nodes 2 2 rectA targetA 20 := by
    have h : create_nodes 2 2 rectA targetA 20
        = nodeA :: (create_nodes 2 2 rectA targetA 20).tail := rfl
    rw [h]
    exact List.mem_cons_self _ _
  exact ⟨hmem, C1_initial_offset 2 2 rectA targetA 20 nodeA hmem⟩

/-- Claim C4, counterexample: the initial state of the first node of the
concrete grid sits at distance 20 from its resting center, not 30. -/
theorem C4_counterexample :
    (vec2 nodeA.x nodeA.y).distance (vec2 nodeA.center.x nodeA.center.y) = 20 ∧
    (20 : ℝ) ≠ 30 := by
  constructor
  · rw [nodeA_eq]
    simp only [Vec2.distance, vec2, Node.new]
    rw [show ((-100 : ℝ) - -100) ^ 2 + ((-80 : ℝ) - -100) ^ 2 = 400 by norm_num]
    exact sqrt_eval 400 20 (by norm_num) (by norm_num)
  · norm_num

/-! ## The scenario of §8: resting center (0, 0), attractor (0, 100) -/

/-- The bearing of the scenario: `atan2 0 0 = 0` for the zero resting
vector. -/
theorem nodeC3_bearing :
    (vec2 nodeC3.center.x nodeC3.center.y).angle_between
      (vec2 targetC3.x targetC3.y) = 0 := by
  apply Vec2.angle_between_eq_zero <;>
    norm_num [Vec2.dot, Vec2.perp_dot, vec2, nodeC3, targetC3, Node.new]

/-- Full evaluation of `Node.update` on the scenario, for arbitrary
random draws: position `(0, 30)`, distance 70 to the attractor, radius
`2 + 1000/70`, and the randomized color branch (since `70 < 100`). -/
theorem nodeC3_update_eval (r1 r2 r3 : ℝ) :
    (nodeC3.update targetC3 r1 r2 r3).x = 0 ∧
    (nodeC3.update targetC3 r1 r2 r3).y = 30 ∧
    (vec2 (nodeC3.update targetC3 r1 r2 r3).x
      (nodeC3.update targetC3 r1 r2 r3).y).distance (vec2 targetC3.x targetC3.y) = 70 ∧
    (nodeC3.update targetC3 r1 r2 r3).radius = 2 + 1000 / 70 ∧
    (nodeC3.update targetC3 r1 r2 r3).color = srgba r1 r2 r3 1 := by
  have hx : (nodeC3.update targetC3 r1 r2 r3).x = 0 := by
    rw [Node.update_x, nodeC3_bearing]
    norm_num [nodeC3, Node.new, vec2]
  have hy : (nodeC3.update targetC3 r1 r2 r3).y = 30 := by
    rw [Node.update_y, nodeC3_bearing]
    norm_num [nodeC3, Node.new, vec2]
  have hdist : (vec2 (nodeC3.update targetC3 r1 r2 r3).x
      (nodeC3.update targetC3 r1 r2 r3).y).distance (vec2 targetC3.x targetC3.y) = 70 := by
    rw [Vec2.distance]
    simp only [vec2]
    rw [hx, hy]
    simp only [targetC3]
    rw [show ((0 : ℝ) - 0) ^ 2 + ((30 : ℝ) - 100) ^ 2 = 4900 by norm_num]
    exact sqrt_eval 4900 70 (by norm_num) (by norm_num)
  have hrad : (nodeC3.update targetC3 r1 r2 r3).radius = 2 + 1000 / 70 := by
    rw [Node.update_radius, hdist, if_neg (by norm_num : ¬((70 : ℝ) = 0))]
    norm_num [min_def]
  have hcol : (nodeC3.update targetC3 r1 r2 r3).color = srgba r1 r2 r3 1 := by
    rw [Node.update_color, hdist, if_pos (by norm_num : (70 : ℝ) < 100.0)]
    norm_num [srgba]
  exact ⟨hx, hy, hdist, hrad, hcol⟩

/-- Claim C3 (amended): in the scenario the bearing is 0, the new
position `(0, 30)`, the distance to the attractor 70, the radius
`2 + 1000/70 = 114/7` — but since `70 < 100` the color is the freshly
drawn random one with full opacity, not white. -/
theorem C3_scenario (r1 r2 r3 : ℝ) :
    (vec2 nodeC3.center.x nodeC3.center.y).angle_between
      (vec2 targetC3.x targetC3.y) = 0 ∧
    (nodeC3.update targetC3 r1 r2 r3).x = 0 ∧
    (nodeC3.update targetC3 r1 r2 r3).y = 30 ∧
    (vec2 (nodeC3.update targetC3 r1 r2 r3).x
      (nodeC3.update targetC3 r1 r2 r3).y).distance (vec2 targetC3.x targetC3.y) = 70 ∧
    (nodeC3.update targetC3 r1 r2 r3).radius = 114 / 7 ∧
    (nodeC3.update targetC3 r1 r2 r3).color = srgba r1 r2 r3 1 := by
  obtain ⟨hx, hy, hdist, hrad, hcol⟩ := nodeC3_update_eval r1 r2 r3
  refine ⟨nodeC3_bearing, hx, hy, hdist, ?_, hcol⟩
  rw [hrad]
  norm_num

/-- Claim C3, counterexample: with random draws `(0, 0, 0)` the updated
color of the scenario node is `(0, 0, 0, 1)`, not the claimed white
`(1, 1, 1, 1)` — the distance 70 is below the 100 threshold, so the
random branch is taken. -/
theorem C3_counterexample :
    (nodeC3.update targetC3 0 0 0).color = srgba 0 0 0 1 ∧
    srgba (0 : ℝ) 0 0 1 ≠ srgba 1 1 1 1 := by
  refine ⟨(nodeC3_update_eval 0 0 0).2.2.2.2, ?_⟩
  simp only [srgba, ne_eq, Srgba.mk.injEq]
  norm_num

/-- Claim C7: after `Node.update`, if the distance from the current
position to the attractor is at least 100 the color is exactly white
`(1, 1, 1, 1)`; if it is below 100 the color has alpha exactly 1 and
each RGB channel is the corresponding random draw, hence in `[0, 1]`
whenever the draws are. -/
theorem C7_color_rule (n : Node) (target : Point) (r1 r2 r3 : ℝ)
    (h1 : 0 ≤ r1) (h2 : r1 ≤ 1) (h3 : 0 ≤ r2) (h4 : r2 ≤ 1)
    (h5 : 0 ≤ r3) (h6 : r3 ≤ 1) :
    (100 ≤ (vec2 (n.update target r1 r2 r3).x (n.update target r1 r2 r3).y).distance
        (vec2 target.x target.y) →
      (n.update target r1 r2 r3).color = srgba 1 1 1 1) ∧
    ((vec2 (n.update target r1 r2 r3).x (n.update target r1 r2 r3).y).distance
        (vec2 target.x target.y) < 100 →
      (n.update target r1 r2 r3).color.a = 1 ∧
      0 ≤ (n.update target r1 r2 r3).color.r ∧ (n.update target r1 r2 r3).color.r ≤ 1 ∧
      0 ≤ (n.update target r1 r2 r3).color.g ∧ (n.update target r1 r2 r3).color.g ≤ 1 ∧
      0 ≤ (n.update target r1 r2 r3).color.b ∧ (n.update target r1 r2 r3).color.b ≤ 1) := by
  constructor
  · intro hge
    have hge0 : (100.0 : ℝ) ≤ (vec2 (n.update target r1 r2 r3).x
        (n.update target r1 r2 r3).y).distance (vec2 target.x target.y) := by
      norm_num
      exact hge
    rw [Node.update_color, if_neg (not_lt.mpr hge0)]
    norm_num [srgba]
  · intro hlt
    have hlt0 : (vec2 (n.update target r1 r2 r3).x
        (n.update target r1 r2 r3).y).distance (vec2 target.x target.y) < 100.0 := by
      norm_num
      exact hlt
    rw [Node.update_color, if_pos hlt0]
    exact ⟨by norm_num [srgba], h1, h2, h3, h4, h5, h6⟩

/-- Claim C7, witness: the scenario node with draws `(1/2, 1/2, 1/2)`
has distance 70 < 100, alpha 1, and all channels in `[0, 1]`. -/
theorem C7_color_rule_witness :
    ((0 : ℝ) ≤ 1 / 2 ∧ (1 / 2 : ℝ) ≤ 1) ∧
    ((nodeC3.update targetC3 (1 / 2) (1 / 2) (1 / 2)).color.a = 1 ∧
      0 ≤ (nodeC3.update targetC3 (1 / 2) (1 / 2) (1 / 2)).color.r ∧
      (nodeC3.update targetC3 (1 / 2) (1 / 2) (1 / 2)).color.r ≤ 1 ∧
      0 ≤ (nodeC3.update targetC3 (1 / 2) (1 / 2) (1 / 2)).color.g ∧
      (nodeC3.update targetC3 (1 / 2) (1 / 2) (1 / 2)).color.g ≤ 1 ∧
      0 ≤ (nodeC3.update targetC3 (1 / 2) (1 / 2) (1 / 2)).color.b ∧
      (nodeC3.update targetC3 (1 / 2) (1 / 2) (1 / 2)).color.b ≤ 1) := by
  refine ⟨⟨by norm_num, by norm_num⟩, ?_⟩
  refine (C7_color_rule nodeC3 targetC3 (1 / 2) (1 / 2) (1 / 2)
    (by norm_num) (by norm_num) (by norm_num) (by norm_num) (by norm_num) (by norm_num)).2 ?_
  rw [(nodeC3_update_eval (1 / 2) (1 / 2) (1 / 2)).2.2.1]
  norm_num

/-! ## The attractor update (claim C6) -/

/-- Range mapping of a sine value into `[c, d]` stays in `[c, d]`. -/
theorem map_range_mem (s c d : ℝ) (hs1 : -1 ≤ s) (hs2 : s ≤ 1) (hcd : c ≤ d) :
    c ≤ map_range s (-1) 1 c d ∧ map_range s (-1) 1 c d ≤ d := by
  simp only [map_range]
  constructor
  · nlinarith [mul_nonneg (by linarith : (0 : ℝ) ≤ s + 1) (by linarith : (0 : ℝ) ≤ d - c)]
  · nlinarith [mul_nonneg (by linarith : (0 : ℝ) ≤ 1 - s) (by linarith : (0 : ℝ) ≤ d - c)]

/-- Claim C6 (amended): after `Point.update` at elapsed time `t` the
position is the range-map of `sin (t / 1.4)` into `[min_x, max_x]` and
of `sin (t / 2)` into `[min_y, max_y]`, hence lies in the bounding box;
on the box `(-100, 100, -100, 100)` each axis is exact at its own sine
extremum: `sin (t / 1.4) = 1` gives `x = 100` and `sin (t / 2) = -1`
gives `y = -100`.  (The two extrema are never attained at the same `t`;
see the counterexample.) -/
theorem C6_attractor_update (t : ℝ) (p : Point)
    (hx : p.min_x ≤ p.max_x) (hy : p.min_y ≤ p.max_y) :
    ((p.update t).x = map_range (Real.sin (t / 1.4)) (-1) 1 p.min_x p.max_x ∧
     (p.update t).y = map_range (Real.sin (t / 2.0)) (-1) 1 p.min_y p.max_y) ∧
    (p.min_x ≤ (p.update t).x ∧ (p.update t).x ≤ p.max_x) ∧
    (p.min_y ≤ (p.update t).y ∧ (p.update t).y ≤ p.max_y) ∧
    (p.min_x = -100 → p.max_x = 100 → Real.sin (t / 1.4) = 1 → (p.update t).x = 100) ∧
    (p.min_y = -100 → p.max_y = 100 → Real.sin (t / 2.0) = -1 → (p.update t).y = -100) := by
  have hux : (p.update t).x = map_range (Real.sin (t / 1.4)) (-1) 1 p.min_x p.max_x := rfl
  have huy : (p.update t).y = map_range (Real.sin (t / 2.0)) (-1) 1 p.min_y p.max_y := rfl
  refine ⟨⟨hux, huy⟩, ?_, ?_, ?_, ?_⟩
  · rw [hux]
    exact map_range_mem _ _ _ (Real.neg_one_le_sin _) (Real.sin_le_one _) hx
  · rw [huy]
    exact map_range_mem _ _ _ (Real.neg_one_le_sin _) (Real.sin_le_one _) hy
  · intro h1 h2 h3
    rw [hux, h1, h2, h3]
    norm_num [map_range]
  · intro h1 h2 h3
    rw [huy, h1, h2, h3]
    norm_num [map_range]

/-- Claim C6, witness: the program-shaped attractor on the box
`(-100, 100, -100, 100)` at `t = 0.7 π` (where `sin (t / 1.4) = 1`)
sits at `x = 100`. -/
theorem C6_attractor_update_witness :
    pointC6.min_x ≤ pointC6.max_x ∧ pointC6.min_y ≤ pointC6.max_y ∧
    (pointC6.update (0.7 * Real.pi)).x = 100 := by
  have h1 : pointC6.min_x ≤ pointC6.max_x := by
    norm_num [pointC6, Point.new, rectC6]
  have h2 : pointC6.min_y ≤ pointC6.max_y := by
    norm_num [pointC6, Point.new, rectC6]
  have hsin : Real.sin (0.7 * Real.pi / 1.4) = 1 := by
    rw [show (0.7 * Real.pi / 1.4 : ℝ) = Real.pi / 2 by ring]
    exact Real.sin_pi_div_two
  refine ⟨h1, h2, ?_⟩
  exact (C6_attractor_update (0.7 * Real.pi) pointC6 h1 h2).2.2.2.1
    (by norm_num [pointC6, Point.new, rectC6])
    (by norm_num [pointC6, Point.new, rectC6]) hsin

/-- Claim C6, counterexample: there is no elapsed time at which the
attractor on the box `(-100, 100, -100, 100)` sits at `(100, -100)`:
`sin (t / 1.4) = 1` and `sin (t / 2) = -1` cannot hold at the same `t`
(the corner premise of the claim is unsatisfiable: it would force
`17 + 28 k - 40 m = 0` with integers `k`, `m`, impossible modulo 4). -/
theorem C6_counterexample :
    ¬ ∃ t : ℝ, (pointC6.update t).x = 100 ∧ (pointC6.update t).y = -100 := by
  rintro ⟨t, hx, hy⟩
  have hux : (pointC6.update t).x
      = map_range (Real.sin (t / 1.4)) (-1) 1 (-100) 100 := rfl
  have huy : (pointC6.update t).y
      = map_range (Real.sin (t / 2.0)) (-1) 1 (-100) 100 := rfl
  rw [hux] at hx
  rw [huy] at hy
  simp only [map_range] at hx hy
  have hs1 : Real.sin (t / 1.4) = 1 := by linarith
  have hs2 : Real.sin (t / 2.0) = -1 := by linarith
  obtain ⟨k, hk⟩ := Real.sin_eq_one_iff.mp hs1
  obtain ⟨m, hm⟩ := Real.sin_eq_neg_one_iff.mp hs2
  have hkey : ((17 : ℝ) + 28 * k - 40 * m) * Real.pi = 0 := by
    linear_combination (14 : ℝ) * hk - 20 * hm
  have h17 : ((17 : ℝ) + 28 * (k : ℝ) - 40 * (m : ℝ)) = 0 := by
    rcases mul_eq_zero.mp hkey with h | h
    · exact h
    · exact absurd h Real.pi_ne_zero
  have hz : (17 + 28 * k - 40 * m : ℤ) = 0 := by exact_mod_cast h17
  omega

/-! ## Injectivity of the frame paths (claim C10) -/

set_option maxRecDepth 10000 in
/-- `dec3` inverts `pad3` on `0..999`. -/
theorem dec3_pad3 : ∀ i : Fin 1000, dec3 (pad3 i.val) = i.val := by decide

/-- `pad3` is injective on `0..999`. -/
theorem pad3_inj (i j : ℕ) (hi : i < 1000) (hj : j < 1000) (h : pad3 i = pad3 j) :
    i = j := by
  have hd1 : dec3 (pad3 i) = i := dec3_pad3 ⟨i, hi⟩
  have hd2 : dec3 (pad3 j) = j := dec3_pad3 ⟨j, hj⟩
  rw [← hd1, ← hd2, h]

/-- Claim C10: for a fixed output root, distinct frame indices below
1000 yield distinct capture paths (zero-padding to width 3 with a fixed
extension is injective on `0..999`), so no captured frame overwrites
another within a run. -/
theorem C10_distinct_paths (root : List String) (i j : ℕ)
    (hi : i < 1000) (hj : j < 1000) (hne : i ≠ j) :
    captured_frame_path root i ≠ captured_frame_path root j := by
  intro h
  apply hne
  apply pad3_inj i j hi hj
  have h2 : pad3 i ++ ".png" = pad3 j ++ ".png" := by
    have h1 : [pad3 i ++ ".png"] = ([pad3 j ++ ".png"] : List String) :=
      List.append_cancel_left h
    injection h1 with hh ht
  have h4 : (pad3 i).data ++ ".png".data = (pad3 j).data ++ ".png".data := by
    have h3 := congrArg String.data h2
    simpa [String.data_append] using h3
  exact String.ext (List.append_cancel_right h4)

/-- Claim C10, witness: frames 7 and 8 of the same run are saved to
different paths. -/
theorem C10_distinct_paths_witness :
    7 < 1000 ∧ 8 < 1000 ∧ 7 ≠ 8 ∧
    captured_frame_path ["out"] 7 ≠ captured_frame_path ["out"] 8 :=
  ⟨by norm_num, by norm_num, by norm_num,
    C10_distinct_paths ["out"] 7 8 (by norm_num) (by norm_num) (by norm_num)⟩
